import Mathlib

/-!
Shallow embedding of `metaplex/program/src/processor/redeem_printing_v2_bid.rs`:
the edition-window computation, the range check on the requested edition offset,
and the prize-tracking-ticket (progress ledger) creation/update, together with
proofs of the specified properties.

Machine integers (`u64`) are modelled as `Nat`; the unchecked `u64` additions of
the source (the window loop at lines 298-314 and the `edition_offset_max` sum at
line 316) are modelled with an explicit `% 2^64`, and the `checked_add` calls
as an `Option`-returning addition. Account byte buffers are `List Nat`
(each entry one byte).
-/

def U64MOD : Nat := 2 ^ 64

/-- The prize types of `WinningConfigType` (referenced by the source via
`crate::state`); the processor only tests equality against `PrintingV2`. -/
inductive WinningConfigType where
  | TokenOnlyTransfer
  | FullRightsTransfer
  | PrintingV1
  | PrintingV2
  | Participation
deriving DecidableEq, Repr

/-- `WinningConfigItem` as used by the processor: a safety-deposit-box index
(`u8`), an amount (`u8`), and a prize type. -/
structure WinningConfigItem where
  safety_deposit_box_index : Nat
  amount : Nat
  winning_config_type : WinningConfigType
deriving DecidableEq, Repr

/-- `WinningConfig`: one auction placement, carrying its list of items. -/
structure WinningConfig where
  items : List WinningConfigItem
deriving DecidableEq, Repr

/-- The error variants of `MetaplexError` surfaced by the embedded code paths. -/
inductive MetaplexError where
  | WrongBidEndpointForPrize
  | InvalidEditionNumber
  | NumericalOverflowError
deriving DecidableEq, Repr

/-- Source lines 29-45: find the first item whose `safety_deposit_box_index`
matches and return its `amount` (as `u64`); `0` when no item matches. -/
def count_item_amount_by_safety_deposit_order (items : List WinningConfigItem)
    (safety_deposit_index : Nat) : Nat :=
  match items.find? (fun i => i.safety_deposit_box_index == safety_deposit_index) with
  | some item => item.amount
  | none => 0

/-- Rust `u64::checked_add`: `none` exactly when the mathematical sum does not
fit in 64 bits. -/
def checkedAdd64 (a b : Nat) : Option Nat :=
  if a + b < U64MOD then some (a + b) else none

/-- The loop body of source lines 298-314, walking the winning configs from
index `n` with accumulators `min` (the running `edition_offset_min`) and
`expected` (the running `expected_redemptions`). `ticketEmpty` is
`prize_tracking_ticket_info.data_is_empty()`, constant across the loop; when it
is false the loop breaks as soon as `n >= winning_index`. Unchecked `u64`
addition is modelled with `% U64MOD`. -/
def redeemLoopGo (order winning_index : Nat) (ticketEmpty : Bool) :
    List WinningConfig → Nat → Nat → Nat → Nat × Nat
  | [], _, min, expected => (min, expected)
  | cfg :: rest, n, min, expected =>
    let matching := count_item_amount_by_safety_deposit_order cfg.items order
    let min' := if n < winning_index then (min + matching) % U64MOD else min
    if ticketEmpty then
      redeemLoopGo order winning_index ticketEmpty rest (n + 1) min'
        ((expected + matching) % U64MOD)
    else if winning_index ≤ n then
      (min', expected)
    else
      redeemLoopGo order winning_index ticketEmpty rest (n + 1) min' expected

/-- Source lines 293-314: the whole loop, started with
`edition_offset_min = 1`, `expected_redemptions = 0` at index `0`. -/
def redeemWindowLoop (configs : List WinningConfig) (order winning_index : Nat)
    (ticketEmpty : Bool) : Nat × Nat :=
  redeemLoopGo order winning_index ticketEmpty configs 0 1 0

/-- The per-placement claimed quantities for one safety-deposit order, in
placement order. -/
def counts (configs : List WinningConfig) (order : Nat) : List Nat :=
  configs.map (fun c => count_item_amount_by_safety_deposit_order c.items order)

/-- Sum of the first `t` entries of a list of naturals. -/
def prefixSum (L : List Nat) (t : Nat) : Nat := (L.take t).sum

/-- The window lower bound: `1 + Σ_{n < t} quantityFor(placements[n], order)`. -/
def windowMin (configs : List WinningConfig) (order t : Nat) : Nat :=
  1 + prefixSum (counts configs order) t

/-- `quantityFor(placements[t], order)` (0 past the end of the list). -/
def quantityAt (configs : List WinningConfig) (order t : Nat) : Nat :=
  (counts configs order).getD t 0

/-- The window upper bound (exclusive): `windowMin + quantityFor(placements[t])`. -/
def windowMax (configs : List WinningConfig) (order t : Nat) : Nat :=
  windowMin configs order t + quantityAt configs order t

/-- Total quantity claimed for `order` across all placements. -/
def totalClaimed (configs : List WinningConfig) (order : Nat) : Nat :=
  (counts configs order).sum

/-- Little-endian byte encoding of `v` into `w` bytes (Rust `to_le_bytes`,
truncating above `256^w`). -/
def toLeBytes : Nat → Nat → List Nat
  | 0, _ => []
  | w + 1, v => v % 256 :: toLeBytes w (v / 256)

/-- Little-endian byte decoding (Rust `u64::from_le_bytes` on 8 bytes). -/
def fromLeBytes : List Nat → Nat
  | [] => 0
  | b :: rest => b + 256 * fromLeBytes rest

/-- `data[off .. off+len)` of a byte buffer. -/
def sliceBytes (data : List Nat) (off len : Nat) : List Nat :=
  (data.drop off).take len

/-- `MAX_PRIZE_TRACKING_TICKET_SIZE`: the record regions split at source lines
161-162 and 175-176 are `1 + 32 + 8 + 8 + 8 + 50` bytes. -/
def MAX_PRIZE_TRACKING_TICKET_SIZE : Nat := 107

/-- Modelled from the spec: the numeric value of the
`Key::PrizeTrackingTicketV1` discriminant lives in `state.rs`, which is not
part of the excerpted source; no claim depends on the exact value, only on the
field being the single leading tag byte. -/
def keyPrizeTrackingTicketV1 : Nat := 8

/-- Source line 128: the mint of the metadata account is bytes 33..65 of the
metadata account's data (used only as a derivation seed). -/
def metadataMintOf (metadataData : List Nat) : List Nat :=
  sliceBytes metadataData 33 32

/-- Source lines 158-169: the freshly created prize tracking ticket bytes.
`create_or_allocate_account_raw` zero-fills the new account, so the 50 reserved
bytes are zero. The 32-byte field after the tag is written from
`metadata_account_info.key` (line 165). -/
def createTicketData (metadataAccountKey : List Nat) (supply expected : Nat) :
    List Nat :=
  [keyPrizeTrackingTicketV1] ++ metadataAccountKey ++ toLeBytes 8 supply ++
    toLeBytes 8 expected ++ toLeBytes 8 1 ++ List.replicate 50 0

/-- Source line 181's effect on the ticket bytes: only the redemptions region
`[49, 57)` is overwritten with the incremented counter. -/
def updatedTicketData (data : List Nat) (next : Nat) : List Nat :=
  data.take 49 ++ toLeBytes 8 next ++ data.drop 57

/-- Source lines 116-185, `create_or_update_prize_tracking`, after the external
derivation check: `ticket = none` models an empty prize-tracking account.
Result: the ticket bytes after the call, the returned `supply_snapshot`, and
the number of `get_supply_off_master_edition` queries made (1 on creation,
0 on update). `masterEditionSupply` is the value that single query returns. -/
def create_or_update_prize_tracking (metadataAccountKey : List Nat)
    (masterEditionSupply expected_redemptions : Nat) :
    Option (List Nat) → Except MetaplexError (List Nat × Nat × Nat)
  | none =>
      .ok (createTicketData metadataAccountKey masterEditionSupply
             expected_redemptions, masterEditionSupply, 1)
  | some data =>
      match checkedAdd64 (fromLeBytes (sliceBytes data 49 8)) 1 with
      | none => .error .NumericalOverflowError
      | some next =>
          .ok (updatedTicketData data next, fromLeBytes (sliceBytes data 33 8), 0)

/-- The supply baseline `create_or_update_prize_tracking` works from: the
master edition's current supply on creation, the stored snapshot afterwards. -/
def baselineOf (ticket : Option (List Nat)) (masterEditionSupply : Nat) : Nat :=
  match ticket with
  | none => masterEditionSupply
  | some data => fromLeBytes (sliceBytes data 33 8)

/-- Source lines 282-340: the allocation core of
`process_redeem_printing_v2_bid` once a valid `winning_index` is in hand.
Checks the prize type of the winning config item, computes the window via the
loop, range-checks `edition_offset`, ensures the prize tracking ticket, and
computes `actual_edition` with `checked_add`. On success the result carries
the `actual_edition` passed to `mint_edition` and the ticket bytes after the
call; every error aborts before the mint is invoked. The `u64` sum at line 316
is unchecked, hence the `% U64MOD`. -/
def allocate (winning_config_item : WinningConfigItem)
    (configs : List WinningConfig) (winning_index order edition_offset : Nat)
    (metadataAccountKey : List Nat) (masterEditionSupply : Nat)
    (ticket : Option (List Nat)) : Except MetaplexError (Nat × List Nat) :=
  if winning_config_item.winning_config_type ≠ WinningConfigType.PrintingV2 then
    .error .WrongBidEndpointForPrize
  else
    let r := redeemWindowLoop configs order winning_index ticket.isNone
    let edition_offset_min := r.1
    let expected_redemptions := r.2
    let edition_offset_max :=
      (edition_offset_min +
        count_item_amount_by_safety_deposit_order
          (configs.getD winning_index ⟨[]⟩).items order) % U64MOD
    if edition_offset < edition_offset_min ∨ edition_offset_max ≤ edition_offset
    then
      .error .InvalidEditionNumber
    else
      match create_or_update_prize_tracking metadataAccountKey
          masterEditionSupply expected_redemptions ticket with
      | .error e => .error e
      | .ok (newTicket, supply_snapshot, _) =>
          match checkedAdd64 edition_offset supply_snapshot with
          | none => .error .NumericalOverflowError
          | some actual_edition => .ok (actual_edition, newTicket)

example :
    count_item_amount_by_safety_deposit_order
      [⟨0, 3, .PrintingV2⟩, ⟨1, 2, .PrintingV2⟩] 1 = 2 := by decide

example :
    windowMin [⟨[⟨0, 3, .PrintingV2⟩]⟩, ⟨[⟨0, 2, .PrintingV2⟩]⟩,
      ⟨[⟨1, 1, .PrintingV2⟩]⟩] 0 1 = 4 := by decide

example :
    windowMax [⟨[⟨0, 3, .PrintingV2⟩]⟩, ⟨[⟨0, 2, .PrintingV2⟩]⟩,
      ⟨[⟨1, 1, .PrintingV2⟩]⟩] 0 1 = 6 := by decide

example :
    totalClaimed [⟨[⟨0, 3, .PrintingV2⟩]⟩, ⟨[⟨0, 2, .PrintingV2⟩]⟩,
      ⟨[⟨1, 1, .PrintingV2⟩]⟩] 0 = 5 := by decide

/-! ### Prefix-sum helper lemmas -/

theorem prefixSum_cons_succ (a : Nat) (L : List Nat) (k : Nat) :
    prefixSum (a :: L) (k + 1) = a + prefixSum L k := by
  simp [prefixSum]

theorem prefixSum_of_le (L : List Nat) (t : Nat) (h : L.length ≤ t) :
    prefixSum L t = L.sum := by
  unfold prefixSum
  rw [List.take_of_length_le h]

theorem prefixSum_succ (L : List Nat) (t : Nat) :
    prefixSum L (t + 1) = prefixSum L t + L.getD t 0 := by
  rcases Nat.lt_or_ge t L.length with h | h
  · unfold prefixSum
    rw [List.sum_take_succ L t h, List.getD_eq_getElem _ _ h]
  · rw [prefixSum_of_le L t h, prefixSum_of_le L (t + 1) (Nat.le_succ_of_le h),
      List.getD_eq_default _ _ h]
    omega

theorem prefixSum_le_sum (L : List Nat) (t : Nat) : prefixSum L t ≤ L.sum := by
  have := List.sum_take_add_sum_drop L t
  unfold prefixSum
  omega

theorem prefixSum_mono (L : List Nat) {s t : Nat} (h : s ≤ t) :
    prefixSum L s ≤ prefixSum L t := by
  induction t, h using Nat.le_induction with
  | base => exact Nat.le_refl _
  | succ t _ ih =>
    rw [prefixSum_succ]
    omega

theorem counts_cons (cfg : WinningConfig) (rest : List WinningConfig)
    (order : Nat) :
    counts (cfg :: rest) order
      = count_item_amount_by_safety_deposit_order cfg.items order ::
          counts rest order := rfl

theorem quantityAt_eq_getD (configs : List WinningConfig) (order wi : Nat) :
    quantityAt configs order wi
      = count_item_amount_by_safety_deposit_order
          (configs.getD wi ⟨[]⟩).items order := by
  unfold quantityAt counts
  rcases Nat.lt_or_ge wi configs.length with h | h
  · rw [List.getD_eq_getElem _ _ (by simpa using h), List.getD_eq_getElem _ _ h]
    simp
  · rw [List.getD_eq_default _ _ (by simpa using h), List.getD_eq_default _ _ h]
    rfl

/-! ### Characterization of the window loop -/

theorem redeemLoopGo_false (order wi : Nat) :
    ∀ (rest : List WinningConfig) (n minAcc expAcc : Nat),
      minAcc + (counts rest order).sum < U64MOD →
      redeemLoopGo order wi false rest n minAcc expAcc
        = (minAcc + prefixSum (counts rest order) (wi - n), expAcc) := by
  intro rest
  induction rest with
  | nil =>
    intro n minAcc expAcc _
    simp [redeemLoopGo, prefixSum, counts]
  | cons cfg rest ih =>
    intro n minAcc expAcc h
    rw [counts_cons] at h
    simp only [List.sum_cons] at h
    rcases Nat.lt_or_ge n wi with hn | hn
    · have hbreak : ¬ wi ≤ n := Nat.not_le_of_lt hn
      have hmod : (minAcc + count_item_amount_by_safety_deposit_order
          cfg.items order) % U64MOD
          = minAcc + count_item_amount_by_safety_deposit_order cfg.items order :=
        Nat.mod_eq_of_lt (by omega)
      have hwin : wi - n = (wi - (n + 1)) + 1 := by omega
      simp only [redeemLoopGo, if_pos hn, hmod, Bool.false_eq_true, if_false,
        if_neg hbreak]
      rw [ih (n + 1) (minAcc + count_item_amount_by_safety_deposit_order
        cfg.items order) expAcc (by omega)]
      rw [counts_cons, hwin, prefixSum_cons_succ]
      simp only [Prod.mk.injEq]
      constructor <;> first | trivial | omega
    · have hbreak : wi ≤ n := hn
      have hwin : wi - n = 0 := by omega
      simp only [redeemLoopGo, if_neg (Nat.not_lt_of_le hn), Bool.false_eq_true,
        if_false, if_pos hbreak, hwin]
      simp [prefixSum]

theorem redeemLoopGo_true (order wi : Nat) :
    ∀ (rest : List WinningConfig) (n minAcc expAcc : Nat),
      minAcc + (counts rest order).sum < U64MOD →
      expAcc + (counts rest order).sum < U64MOD →
      redeemLoopGo order wi true rest n minAcc expAcc
        = (minAcc + prefixSum (counts rest order) (wi - n),
           expAcc + (counts rest order).sum) := by
  intro rest
  induction rest with
  | nil =>
    intro n minAcc expAcc _ _
    simp [redeemLoopGo, prefixSum, counts]
  | cons cfg rest ih =>
    intro n minAcc expAcc hmin hexp
    rw [counts_cons] at hmin hexp
    simp only [List.sum_cons] at hmin hexp
    have hemod : (expAcc + count_item_amount_by_safety_deposit_order
        cfg.items order) % U64MOD
        = expAcc + count_item_amount_by_safety_deposit_order cfg.items order :=
      Nat.mod_eq_of_lt (by omega)
    rcases Nat.lt_or_ge n wi with hn | hn
    · have hmod : (minAcc + count_item_amount_by_safety_deposit_order
          cfg.items order) % U64MOD
          = minAcc + count_item_amount_by_safety_deposit_order cfg.items order :=
        Nat.mod_eq_of_lt (by omega)
      have hwin : wi - n = (wi - (n + 1)) + 1 := by omega
      simp only [redeemLoopGo, if_pos hn, hmod, hemod, if_true]
      rw [ih (n + 1) _ _ (by omega) (by omega)]
      rw [counts_cons, hwin, prefixSum_cons_succ]
      simp only [List.sum_cons, Prod.mk.injEq]
      constructor <;> first | trivial | omega
    · have hwin : wi - (n + 1) = 0 := by omega
      have hwin0 : wi - n = 0 := by omega
      simp only [redeemLoopGo, if_neg (Nat.not_lt_of_le hn), hemod, if_true]
      rw [ih (n + 1) _ _ (by omega) (by omega)]
      rw [counts_cons, hwin, hwin0]
      simp only [List.sum_cons, prefixSum, List.take_zero, List.sum_nil,
        Prod.mk.injEq]
      constructor <;> first | trivial | omega

theorem redeemWindowLoop_eq (configs : List WinningConfig)
    (order wi : Nat) (te : Bool)
    (hov : 1 + totalClaimed configs order < U64MOD) :
    redeemWindowLoop configs order wi te
      = (windowMin configs order wi,
         if te then totalClaimed configs order else 0) := by
  unfold redeemWindowLoop windowMin totalClaimed
  unfold totalClaimed at hov
  cases te with
  | false =>
    rw [redeemLoopGo_false order wi configs 0 1 0 (by omega)]
    simp
  | true =>
    rw [redeemLoopGo_true order wi configs 0 1 0 (by omega) (by omega)]
    simp

theorem windowMin_pos (configs : List WinningConfig) (order wi : Nat) :
    1 ≤ windowMin configs order wi := by
  unfold windowMin
  omega

theorem windowMax_le_total (configs : List WinningConfig) (order wi : Nat) :
    windowMax configs order wi ≤ 1 + totalClaimed configs order := by
  unfold windowMax windowMin quantityAt totalClaimed
  have h := prefixSum_succ (counts configs order) wi
  have h2 := prefixSum_le_sum (counts configs order) (wi + 1)
  omega

/-! ### Characterization of `allocate` after the loop -/

theorem allocate_eq (item : WinningConfigItem) (configs : List WinningConfig)
    (wi order off : Nat) (mk : List Nat) (ms : Nat)
    (ticket : Option (List Nat))
    (hkind : item.winning_config_type = WinningConfigType.PrintingV2)
    (hov : 1 + totalClaimed configs order < U64MOD) :
    allocate item configs wi order off mk ms ticket
      = if off < windowMin configs order wi ∨ windowMax configs order wi ≤ off
        then Except.error MetaplexError.InvalidEditionNumber
        else
          match create_or_update_prize_tracking mk ms
              (if ticket.isNone then totalClaimed configs order else 0)
              ticket with
          | Except.error e => Except.error e
          | Except.ok (newTicket, supply, _) =>
              match checkedAdd64 off supply with
              | none => Except.error MetaplexError.NumericalOverflowError
              | some actual => Except.ok (actual, newTicket) := by
  have hmax : (windowMin configs order wi +
      count_item_amount_by_safety_deposit_order
        (configs.getD wi ⟨[]⟩).items order) % U64MOD
      = windowMax configs order wi := by
    rw [← quantityAt_eq_getD]
    have h1 := windowMax_le_total configs order wi
    unfold windowMax at h1 ⊢
    exact Nat.mod_eq_of_lt (by omega)
  unfold allocate
  rw [if_neg (by simp [hkind])]
  rw [redeemWindowLoop_eq configs order wi ticket.isNone hov]
  simp only [hmax]

/-- C3: `quantityFor` returns 0 when no claim of the placement matches the
resource (safety-deposit) index; otherwise it returns the amount of the first
matching claim, whatever follows it — in particular a second claim for the
same index is ignored. -/
theorem quantityFor_first_match (items : List WinningConfigItem) (idx : Nat) :
    ((∀ i ∈ items, i.safety_deposit_box_index ≠ idx) →
      count_item_amount_by_safety_deposit_order items idx = 0)
    ∧ (∀ (pre : List WinningConfigItem) (a : WinningConfigItem)
         (rest : List WinningConfigItem),
        items = pre ++ a :: rest →
        (∀ i ∈ pre, i.safety_deposit_box_index ≠ idx) →
        a.safety_deposit_box_index = idx →
        count_item_amount_by_safety_deposit_order items idx = a.amount)
    ∧ (∀ (a b : WinningConfigItem) (tl : List WinningConfigItem),
        a.safety_deposit_box_index = idx →
        count_item_amount_by_safety_deposit_order (a :: b :: tl) idx
          = a.amount) := by
  refine ⟨?_, ?_, ?_⟩
  · intro hno
    unfold count_item_amount_by_safety_deposit_order
    have hfind : items.find?
        (fun i => i.safety_deposit_box_index == idx) = none := by
      rw [List.find?_eq_none]
      intro x hx
      simpa using hno x hx
    rw [hfind]
  · intro pre a rest heq hpre ha
    subst heq
    unfold count_item_amount_by_safety_deposit_order
    have hprenone : pre.find?
        (fun i => i.safety_deposit_box_index == idx) = none := by
      rw [List.find?_eq_none]
      intro x hx
      simpa using hpre x hx
    have hcons : (a :: rest).find?
        (fun i => i.safety_deposit_box_index == idx) = some a :=
      List.find?_cons_of_pos _ (by simpa using ha)
    rw [List.find?_append, hprenone, hcons]
    rfl
  · intro a b tl ha
    unfold count_item_amount_by_safety_deposit_order
    rw [List.find?_cons_of_pos _ (by simpa using ha)]

/-- C3 witness: a placement with two claims for index 0 returns the first
claim's amount (5), ignoring the second; a placement with no claim for
index 9 returns 0. -/
theorem quantityFor_first_match_witness :
    count_item_amount_by_safety_deposit_order
      [⟨0, 5, WinningConfigType.PrintingV2⟩,
       ⟨0, 7, WinningConfigType.TokenOnlyTransfer⟩] 0 = 5
    ∧ count_item_amount_by_safety_deposit_order
      [⟨0, 5, WinningConfigType.PrintingV2⟩] 9 = 0 := by
  constructor
  · exact (quantityFor_first_match
      [⟨0, 5, WinningConfigType.PrintingV2⟩,
       ⟨0, 7, WinningConfigType.TokenOnlyTransfer⟩] 0).2.2
      ⟨0, 5, WinningConfigType.PrintingV2⟩
      ⟨0, 7, WinningConfigType.TokenOnlyTransfer⟩ [] rfl
  · exact (quantityFor_first_match
      [⟨0, 5, WinningConfigType.PrintingV2⟩] 9).1 (by decide)

/-! ### Window partition -/

theorem windowMin_mono (configs : List WinningConfig) (order : Nat)
    {s t : Nat} (h : s ≤ t) :
    windowMin configs order s ≤ windowMin configs order t := by
  unfold windowMin
  have := prefixSum_mono (counts configs order) h
  omega

theorem windowMax_eq_windowMin_succ (configs : List WinningConfig)
    (order t : Nat) :
    windowMax configs order t = windowMin configs order (t + 1) := by
  unfold windowMax windowMin quantityAt
  rw [prefixSum_succ]
  omega

theorem windowMin_length_eq (configs : List WinningConfig) (order : Nat) :
    windowMin configs order configs.length
      = 1 + totalClaimed configs order := by
  unfold windowMin totalClaimed
  rw [prefixSum_of_le _ _ (by simp [counts])]

theorem exists_window_of_mem (configs : List WinningConfig) (order x : Nat)
    (hx1 : 1 ≤ x) (hx2 : x < 1 + totalClaimed configs order) :
    ∃ t, t < configs.length ∧ windowMin configs order t ≤ x
      ∧ x < windowMax configs order t := by
  have hP0 : windowMin configs order 0 ≤ x := by
    unfold windowMin prefixSum
    simpa using hx1
  have hPt : windowMin configs order
      (Nat.findGreatest (fun t => windowMin configs order t ≤ x)
        configs.length) ≤ x :=
    @Nat.findGreatest_spec 0 (fun t => windowMin configs order t ≤ x) _
      configs.length (Nat.zero_le configs.length) hP0
  have hle : Nat.findGreatest (fun t => windowMin configs order t ≤ x)
      configs.length ≤ configs.length := Nat.findGreatest_le configs.length
  have hne : Nat.findGreatest (fun t => windowMin configs order t ≤ x)
      configs.length ≠ configs.length := by
    intro hcontra
    rw [hcontra, windowMin_length_eq] at hPt
    omega
  refine ⟨Nat.findGreatest (fun t => windowMin configs order t ≤ x)
    configs.length, by omega, hPt, ?_⟩
  by_contra hmax
  have hsucc : windowMin configs order
      (Nat.findGreatest (fun t => windowMin configs order t ≤ x)
        configs.length + 1) ≤ x := by
    have hc := windowMax_eq_windowMin_succ configs order
      (Nat.findGreatest (fun t => windowMin configs order t ≤ x)
        configs.length)
    omega
  exact @Nat.findGreatest_is_greatest
    (Nat.findGreatest (fun t => windowMin configs order t ≤ x)
      configs.length + 1)
    (fun t => windowMin configs order t ≤ x) _ configs.length
    (Nat.lt_succ_self _) (by omega) hsucc

/-- C2: for every placement list and every resource index, consecutive windows
are contiguous (`max t = min (t+1)`), all windows are pairwise disjoint, and
the union of the windows over valid target indices is exactly
`[1, 1 + totalClaimed)`. -/
theorem windows_partition (configs : List WinningConfig) (order : Nat) :
    (∀ t, windowMax configs order t = windowMin configs order (t + 1))
    ∧ (∀ s t x, s ≠ t →
        windowMin configs order s ≤ x → x < windowMax configs order s →
        windowMin configs order t ≤ x → x < windowMax configs order t →
        False)
    ∧ (∀ x, (1 ≤ x ∧ x < 1 + totalClaimed configs order) ↔
        ∃ t, t < configs.length ∧ windowMin configs order t ≤ x
          ∧ x < windowMax configs order t) := by
  refine ⟨windowMax_eq_windowMin_succ configs order, ?_, ?_⟩
  · intro s t x hst hs1 hs2 ht1 ht2
    rcases Nat.lt_or_ge s t with h | h
    · have h1 : windowMax configs order s ≤ windowMin configs order t := by
        rw [windowMax_eq_windowMin_succ]
        exact windowMin_mono configs order h
      omega
    · have h' : t < s := by omega
      have h1 : windowMax configs order t ≤ windowMin configs order s := by
        rw [windowMax_eq_windowMin_succ]
        exact windowMin_mono configs order h'
      omega
  · intro x
    constructor
    · rintro ⟨hx1, hx2⟩
      exact exists_window_of_mem configs order x hx1 hx2
    · rintro ⟨t, _, ht1, ht2⟩
      have h1 := windowMin_pos configs order t
      have h2 := windowMax_le_total configs order t
      omega

/-- C8: when the prize tracking ticket already exists (`ticketEmpty = false`)
the loop that breaks at the target index computes the same
`edition_offset_min` as the full loop, and leaves `expected_redemptions` at 0;
the full total is tabulated only when the ticket is empty. -/
theorem earlyExit_loop_eq (configs : List WinningConfig) (order wi : Nat)
    (hov : 1 + totalClaimed configs order < U64MOD) :
    (redeemWindowLoop configs order wi false).1 = windowMin configs order wi
    ∧ (redeemWindowLoop configs order wi true).1 = windowMin configs order wi
    ∧ (redeemWindowLoop configs order wi false).2 = 0
    ∧ (redeemWindowLoop configs order wi true).2
        = totalClaimed configs order := by
  rw [redeemWindowLoop_eq configs order wi false hov,
      redeemWindowLoop_eq configs order wi true hov]
  simp

/-- C8 witness: the spec's concrete scenario (quantities 3 and 2 for resource
index 0) satisfies the no-overflow hypothesis and the loop equivalences. -/
theorem earlyExit_loop_eq_witness :
    1 + totalClaimed [⟨[⟨0, 3, WinningConfigType.PrintingV2⟩]⟩,
        ⟨[⟨0, 2, WinningConfigType.PrintingV2⟩]⟩] 0 < U64MOD
    ∧ ((redeemWindowLoop [⟨[⟨0, 3, WinningConfigType.PrintingV2⟩]⟩,
          ⟨[⟨0, 2, WinningConfigType.PrintingV2⟩]⟩] 0 1 false).1
        = windowMin [⟨[⟨0, 3, WinningConfigType.PrintingV2⟩]⟩,
            ⟨[⟨0, 2, WinningConfigType.PrintingV2⟩]⟩] 0 1
      ∧ (redeemWindowLoop [⟨[⟨0, 3, WinningConfigType.PrintingV2⟩]⟩,
          ⟨[⟨0, 2, WinningConfigType.PrintingV2⟩]⟩] 0 1 true).1
        = windowMin [⟨[⟨0, 3, WinningConfigType.PrintingV2⟩]⟩,
            ⟨[⟨0, 2, WinningConfigType.PrintingV2⟩]⟩] 0 1
      ∧ (redeemWindowLoop [⟨[⟨0, 3, WinningConfigType.PrintingV2⟩]⟩,
          ⟨[⟨0, 2, WinningConfigType.PrintingV2⟩]⟩] 0 1 false).2 = 0
      ∧ (redeemWindowLoop [⟨[⟨0, 3, WinningConfigType.PrintingV2⟩]⟩,
          ⟨[⟨0, 2, WinningConfigType.PrintingV2⟩]⟩] 0 1 true).2
        = totalClaimed [⟨[⟨0, 3, WinningConfigType.PrintingV2⟩]⟩,
            ⟨[⟨0, 2, WinningConfigType.PrintingV2⟩]⟩] 0) :=
  ⟨by decide, earlyExit_loop_eq _ _ _ (by decide)⟩

/-! ### Range violation (C1) -/

theorem create_or_update_error_eq (mk : List Nat) (ms er : Nat)
    (ticket : Option (List Nat)) (e : MetaplexError)
    (h : create_or_update_prize_tracking mk ms er ticket = Except.error e) :
    e = MetaplexError.NumericalOverflowError := by
  cases ticket with
  | none => simp [create_or_update_prize_tracking] at h
  | some data =>
    simp only [create_or_update_prize_tracking] at h
    cases hadd : checkedAdd64 (fromLeBytes (sliceBytes data 49 8)) 1 with
    | none =>
      rw [hadd] at h
      cases h
      rfl
    | some v =>
      rw [hadd] at h
      simp at h

/-- C1: with a `PrintingV2` winning item, a valid target index, and the
design's no-overflow bound on the claimed total, allocation fails with
`InvalidEditionNumber` exactly when the requested offset lies outside the
half-open window `[windowMin, windowMax)`; in particular `windowMin - 1` and
`windowMax` always fail. -/
theorem rangeViolation_iff (item : WinningConfigItem)
    (configs : List WinningConfig) (wi order off : Nat) (mk : List Nat)
    (ms : Nat) (ticket : Option (List Nat))
    (hkind : item.winning_config_type = WinningConfigType.PrintingV2)
    (_hwi : wi < configs.length)
    (hov : 1 + totalClaimed configs order < U64MOD) :
    (allocate item configs wi order off mk ms ticket
        = Except.error MetaplexError.InvalidEditionNumber
      ↔ (off < windowMin configs order wi
          ∨ windowMax configs order wi ≤ off))
    ∧ allocate item configs wi order (windowMin configs order wi - 1) mk ms
        ticket = Except.error MetaplexError.InvalidEditionNumber
    ∧ allocate item configs wi order (windowMax configs order wi) mk ms
        ticket = Except.error MetaplexError.InvalidEditionNumber := by
  have hmain : ∀ off' : Nat,
      allocate item configs wi order off' mk ms ticket
          = Except.error MetaplexError.InvalidEditionNumber
        ↔ (off' < windowMin configs order wi
            ∨ windowMax configs order wi ≤ off') := by
    intro off'
    rw [allocate_eq item configs wi order off' mk ms ticket hkind hov]
    by_cases hcond : off' < windowMin configs order wi
        ∨ windowMax configs order wi ≤ off'
    · simp [hcond]
    · rw [if_neg hcond]
      simp only [hcond, iff_false]
      rcases hco : create_or_update_prize_tracking mk ms
          (if ticket.isNone then totalClaimed configs order else 0) ticket
        with e | ⟨nt, s, q⟩
      · have he := create_or_update_error_eq _ _ _ _ _ hco
        subst he
        simp
      · cases hadd : checkedAdd64 off' s with
        | none => simp [hadd]
        | some v => simp [hadd]
  refine ⟨hmain off, ?_, ?_⟩
  · rw [hmain]
    have := windowMin_pos configs order wi
    omega
  · rw [hmain]
    omega

/-- C1 witness: one placement claiming 3 editions of resource index 0; offset
2 is inside the window `[1, 4)`, and offsets `min - 1 = 0` and `max = 4`
fail. -/
theorem rangeViolation_iff_witness :
    (⟨0, 3, WinningConfigType.PrintingV2⟩ :
        WinningConfigItem).winning_config_type = WinningConfigType.PrintingV2
    ∧ 0 < ([⟨[⟨0, 3, WinningConfigType.PrintingV2⟩]⟩] :
        List WinningConfig).length
    ∧ 1 + totalClaimed [⟨[⟨0, 3, WinningConfigType.PrintingV2⟩]⟩] 0 < U64MOD
    ∧ ((allocate ⟨0, 3, WinningConfigType.PrintingV2⟩
          [⟨[⟨0, 3, WinningConfigType.PrintingV2⟩]⟩] 0 0 2 [] 10 none
          = Except.error MetaplexError.InvalidEditionNumber
        ↔ (2 < windowMin [⟨[⟨0, 3, WinningConfigType.PrintingV2⟩]⟩] 0 0
            ∨ windowMax [⟨[⟨0, 3, WinningConfigType.PrintingV2⟩]⟩] 0 0 ≤ 2))
      ∧ allocate ⟨0, 3, WinningConfigType.PrintingV2⟩
          [⟨[⟨0, 3, WinningConfigType.PrintingV2⟩]⟩] 0 0
          (windowMin [⟨[⟨0, 3, WinningConfigType.PrintingV2⟩]⟩] 0 0 - 1)
          [] 10 none
          = Except.error MetaplexError.InvalidEditionNumber
      ∧ allocate ⟨0, 3, WinningConfigType.PrintingV2⟩
          [⟨[⟨0, 3, WinningConfigType.PrintingV2⟩]⟩] 0 0
          (windowMax [⟨[⟨0, 3, WinningConfigType.PrintingV2⟩]⟩] 0 0)
          [] 10 none
          = Except.error MetaplexError.InvalidEditionNumber) :=
  ⟨rfl, by decide, by decide,
    rangeViolation_iff ⟨0, 3, WinningConfigType.PrintingV2⟩
      [⟨[⟨0, 3, WinningConfigType.PrintingV2⟩]⟩] 0 0 2 [] 10 none
      rfl (by decide) (by decide)⟩

/-! ### Byte-level lemmas for the prize tracking ticket -/

theorem toLeBytes_length (w v : Nat) : (toLeBytes w v).length = w := by
  induction w generalizing v with
  | zero => rfl
  | succ w ih => simp [toLeBytes, ih]

theorem fromLeBytes_toLeBytes (w v : Nat) (h : v < 256 ^ w) :
    fromLeBytes (toLeBytes w v) = v := by
  induction w generalizing v with
  | zero =>
    simp [toLeBytes, fromLeBytes]
    simp [Nat.pow_zero] at h
    omega
  | succ w ih =>
    simp only [toLeBytes, fromLeBytes]
    rw [ih (v / 256) (by
      have h2 : (256 : Nat) ^ (w + 1) = 256 ^ w * 256 := by ring
      rw [h2] at h
      omega)]
    omega

theorem sliceBytes_append (pre f post : List Nat) (o L : Nat)
    (hpre : pre.length = o) (hf : f.length = L) :
    sliceBytes (pre ++ (f ++ post)) o L = f := by
  unfold sliceBytes
  rw [List.drop_left' hpre, List.take_left' hf]

theorem sliceBytes_of_take_eq (X Y : List Nat) (o L : Nat)
    (h : X.take (o + L) = Y.take (o + L)) :
    sliceBytes X o L = sliceBytes Y o L := by
  unfold sliceBytes
  rw [List.take_drop, List.take_drop, h]

theorem createTicketData_length (mk : List Nat) (s e : Nat)
    (hmk : mk.length = 32) :
    (createTicketData mk s e).length = MAX_PRIZE_TRACKING_TICKET_SIZE := by
  simp [createTicketData, MAX_PRIZE_TRACKING_TICKET_SIZE, hmk, toLeBytes_length]

theorem createTicketData_slice_metadata (mk : List Nat) (s e : Nat)
    (hmk : mk.length = 32) :
    sliceBytes (createTicketData mk s e) 1 32 = mk := by
  have hre : createTicketData mk s e
      = [keyPrizeTrackingTicketV1] ++ (mk ++ (toLeBytes 8 s
          ++ (toLeBytes 8 e ++ (toLeBytes 8 1 ++ List.replicate 50 0)))) := by
    simp [createTicketData]
  rw [hre]
  exact sliceBytes_append _ _ _ _ _ rfl hmk

theorem createTicketData_slice_supply (mk : List Nat) (s e : Nat)
    (hmk : mk.length = 32) :
    sliceBytes (createTicketData mk s e) 33 8 = toLeBytes 8 s := by
  have hre : createTicketData mk s e
      = ([keyPrizeTrackingTicketV1] ++ mk) ++ (toLeBytes 8 s
          ++ (toLeBytes 8 e ++ (toLeBytes 8 1 ++ List.replicate 50 0))) := by
    simp [createTicketData]
  rw [hre]
  exact sliceBytes_append _ _ _ _ _ (by simp [hmk]) (toLeBytes_length 8 s)

theorem createTicketData_slice_expected (mk : List Nat) (s e : Nat)
    (hmk : mk.length = 32) :
    sliceBytes (createTicketData mk s e) 41 8 = toLeBytes 8 e := by
  have hre : createTicketData mk s e
      = (([keyPrizeTrackingTicketV1] ++ mk) ++ toLeBytes 8 s)
          ++ (toLeBytes 8 e ++ (toLeBytes 8 1 ++ List.replicate 50 0)) := by
    simp [createTicketData]
  rw [hre]
  exact sliceBytes_append _ _ _ _ _
    (by simp [hmk, toLeBytes_length]) (toLeBytes_length 8 e)

theorem createTicketData_slice_redemptions (mk : List Nat) (s e : Nat)
    (hmk : mk.length = 32) :
    sliceBytes (createTicketData mk s e) 49 8 = toLeBytes 8 1 := by
  have hre : createTicketData mk s e
      = ((([keyPrizeTrackingTicketV1] ++ mk) ++ toLeBytes 8 s)
          ++ toLeBytes 8 e) ++ (toLeBytes 8 1 ++ List.replicate 50 0) := by
    simp [createTicketData]
  rw [hre]
  exact sliceBytes_append _ _ _ _ _
    (by simp [hmk, toLeBytes_length]) (toLeBytes_length 8 1)

theorem updatedTicketData_length (data : List Nat) (next : Nat)
    (hlen : data.length = MAX_PRIZE_TRACKING_TICKET_SIZE) :
    (updatedTicketData data next).length = data.length := by
  unfold updatedTicketData
  rw [MAX_PRIZE_TRACKING_TICKET_SIZE] at hlen
  simp [toLeBytes_length, hlen]

theorem updatedTicketData_regroup (data : List Nat) (next : Nat) :
    updatedTicketData data next
      = data.take 49 ++ (toLeBytes 8 next ++ data.drop 57) := by
  simp [updatedTicketData]

theorem updatedTicketData_take49 (data : List Nat) (next : Nat)
    (hlen : data.length = MAX_PRIZE_TRACKING_TICKET_SIZE) :
    (updatedTicketData data next).take 49 = data.take 49 := by
  rw [MAX_PRIZE_TRACKING_TICKET_SIZE] at hlen
  rw [updatedTicketData_regroup]
  have hA : (data.take 49).length = 49 := by
    rw [List.length_take, hlen]
    decide
  exact List.take_left' hA

theorem updatedTicketData_drop57 (data : List Nat) (next : Nat)
    (hlen : data.length = MAX_PRIZE_TRACKING_TICKET_SIZE) :
    (updatedTicketData data next).drop 57 = data.drop 57 := by
  rw [MAX_PRIZE_TRACKING_TICKET_SIZE] at hlen
  rw [updatedTicketData_regroup]
  have h49 : List.drop 49 (data.take 49 ++ (toLeBytes 8 next ++ data.drop 57))
      = toLeBytes 8 next ++ data.drop 57 :=
    List.drop_left' (by rw [List.length_take, hlen]; decide)
  have h8 : List.drop 8 (toLeBytes 8 next ++ data.drop 57) = data.drop 57 :=
    List.drop_left' (toLeBytes_length 8 next)
  calc List.drop 57 (data.take 49 ++ (toLeBytes 8 next ++ data.drop 57))
      = List.drop 8 (List.drop 49
          (data.take 49 ++ (toLeBytes 8 next ++ data.drop 57))) := by
        rw [List.drop_drop]
    _ = data.drop 57 := by rw [h49, h8]

theorem updatedTicketData_slice_redemptions (data : List Nat) (next : Nat)
    (hlen : data.length = MAX_PRIZE_TRACKING_TICKET_SIZE) :
    sliceBytes (updatedTicketData data next) 49 8 = toLeBytes 8 next := by
  rw [MAX_PRIZE_TRACKING_TICKET_SIZE] at hlen
  rw [updatedTicketData_regroup]
  unfold sliceBytes
  rw [List.drop_left' (by rw [List.length_take, hlen]; decide)]
  rw [List.take_left' (toLeBytes_length 8 next)]

theorem updatedTicketData_slice_low (data : List Nat) (next o L : Nat)
    (hlen : data.length = MAX_PRIZE_TRACKING_TICKET_SIZE)
    (hoL : o + L ≤ 49) :
    sliceBytes (updatedTicketData data next) o L = sliceBytes data o L := by
  apply sliceBytes_of_take_eq
  have hmin : (o + L) ⊓ 49 = o + L := inf_eq_left.2 hoL
  have h1 : (updatedTicketData data next).take (o + L)
      = ((updatedTicketData data next).take 49).take (o + L) := by
    rw [List.take_take, hmin]
  have h2 : data.take (o + L) = (data.take 49).take (o + L) := by
    rw [List.take_take, hmin]
  rw [h1, h2, updatedTicketData_take49 data next hlen]

theorem updatedTicketData_slice_padding (data : List Nat) (next : Nat)
    (hlen : data.length = MAX_PRIZE_TRACKING_TICKET_SIZE) :
    sliceBytes (updatedTicketData data next) 57 50
      = sliceBytes data 57 50 := by
  unfold sliceBytes
  rw [updatedTicketData_drop57 data next hlen]

theorem pow256_8 : (256 : Nat) ^ 8 = U64MOD := by norm_num [U64MOD]

/-- C4: on a fresh key (empty ticket account) the record is created with
`supplyBaseline` equal to the master edition's current supply — queried
exactly once, counted by the third result component — `redemptions` set to 1
(hence never 0), `expectedRedemptions` set to the caller-supplied value, and
the baseline is returned. -/
theorem ensure_create (mk : List Nat) (ms er : Nat)
    (hmk : mk.length = 32) (hms : ms < U64MOD) (her : er < U64MOD) :
    create_or_update_prize_tracking mk ms er none
      = Except.ok (createTicketData mk ms er, ms, 1)
    ∧ fromLeBytes (sliceBytes (createTicketData mk ms er) 33 8) = ms
    ∧ fromLeBytes (sliceBytes (createTicketData mk ms er) 49 8) = 1
    ∧ fromLeBytes (sliceBytes (createTicketData mk ms er) 41 8) = er := by
  refine ⟨rfl, ?_, ?_, ?_⟩
  · rw [createTicketData_slice_supply mk ms er hmk]
    exact fromLeBytes_toLeBytes 8 ms (by rw [pow256_8]; exact hms)
  · rw [createTicketData_slice_redemptions mk ms er hmk]
    exact fromLeBytes_toLeBytes 8 1 (by rw [pow256_8]; decide)
  · rw [createTicketData_slice_expected mk ms er hmk]
    exact fromLeBytes_toLeBytes 8 er (by rw [pow256_8]; exact her)

/-- C4 witness: creating the record for a concrete 32-byte metadata key,
supply 10 and expected redemptions 5. -/
theorem ensure_create_witness :
    (List.replicate 32 2 : List Nat).length = 32
    ∧ (10 : Nat) < U64MOD
    ∧ (5 : Nat) < U64MOD
    ∧ (create_or_update_prize_tracking (List.replicate 32 2) 10 5 none
        = Except.ok (createTicketData (List.replicate 32 2) 10 5, 10, 1)
      ∧ fromLeBytes
          (sliceBytes (createTicketData (List.replicate 32 2) 10 5) 33 8) = 10
      ∧ fromLeBytes
          (sliceBytes (createTicketData (List.replicate 32 2) 10 5) 49 8) = 1
      ∧ fromLeBytes
          (sliceBytes (createTicketData (List.replicate 32 2) 10 5) 41 8)
        = 5) :=
  ⟨by decide, by decide, by decide,
    ensure_create (List.replicate 32 2) 10 5 (by decide) (by decide)
      (by decide)⟩

/-- C5: on an existing record, `ensure` returns the stored baseline unchanged
(the right-hand sides below never mention the caller-supplied
`expected_redemptions` argument `er`, and the expected-redemptions bytes are
untouched), increments the redemptions counter by exactly 1 via checked
addition, makes no supply query (third component 0), and fails with the
Arithmetic error `NumericalOverflowError` instead of wrapping when the
counter sits at the top of the u64 range. -/
theorem ensure_update (mk : List Nat) (ms er : Nat) (data : List Nat)
    (hlen : data.length = MAX_PRIZE_TRACKING_TICKET_SIZE) :
    (fromLeBytes (sliceBytes data 49 8) + 1 < U64MOD →
      create_or_update_prize_tracking mk ms er (some data)
        = Except.ok
            (updatedTicketData data (fromLeBytes (sliceBytes data 49 8) + 1),
             fromLeBytes (sliceBytes data 33 8), 0)
      ∧ sliceBytes (updatedTicketData data
            (fromLeBytes (sliceBytes data 49 8) + 1)) 41 8
          = sliceBytes data 41 8
      ∧ fromLeBytes (sliceBytes (updatedTicketData data
            (fromLeBytes (sliceBytes data 49 8) + 1)) 49 8)
          = fromLeBytes (sliceBytes data 49 8) + 1)
    ∧ (U64MOD ≤ fromLeBytes (sliceBytes data 49 8) + 1 →
        create_or_update_prize_tracking mk ms er (some data)
          = Except.error MetaplexError.NumericalOverflowError) := by
  constructor
  · intro hok
    refine ⟨?_, ?_, ?_⟩
    · simp only [create_or_update_prize_tracking, checkedAdd64, if_pos hok]
    · exact updatedTicketData_slice_low data _ 41 8 hlen (by omega)
    · rw [updatedTicketData_slice_redemptions data _ hlen]
      exact fromLeBytes_toLeBytes 8 _ (by rw [pow256_8]; exact hok)
  · intro hover
    have hneg : ¬ (fromLeBytes (sliceBytes data 49 8) + 1 < U64MOD) := by
      omega
    simp only [create_or_update_prize_tracking, checkedAdd64, if_neg hneg]

/-- C5 witness: an all-zero record (redemptions 0) updates to redemptions 1;
a record whose redemptions bytes are all `0xFF` (the maximum u64 value)
makes the next call fail with `NumericalOverflowError`. -/
theorem ensure_update_witness :
    (List.replicate 107 0 : List Nat).length = MAX_PRIZE_TRACKING_TICKET_SIZE
    ∧ fromLeBytes (sliceBytes (List.replicate 107 0) 49 8) + 1 < U64MOD
    ∧ (create_or_update_prize_tracking [] 3 99 (some (List.replicate 107 0))
        = Except.ok
            (updatedTicketData (List.replicate 107 0)
              (fromLeBytes (sliceBytes (List.replicate 107 0) 49 8) + 1),
             fromLeBytes (sliceBytes (List.replicate 107 0) 33 8), 0)
      ∧ sliceBytes (updatedTicketData (List.replicate 107 0)
            (fromLeBytes (sliceBytes (List.replicate 107 0) 49 8) + 1)) 41 8
          = sliceBytes (List.replicate 107 0) 41 8
      ∧ fromLeBytes (sliceBytes (updatedTicketData (List.replicate 107 0)
            (fromLeBytes (sliceBytes (List.replicate 107 0) 49 8) + 1)) 49 8)
          = fromLeBytes (sliceBytes (List.replicate 107 0) 49 8) + 1)
    ∧ U64MOD ≤ fromLeBytes (sliceBytes (List.replicate 49 0
        ++ List.replicate 8 255 ++ List.replicate 50 0) 49 8) + 1
    ∧ create_or_update_prize_tracking [] 3 99
        (some (List.replicate 49 0 ++ List.replicate 8 255
          ++ List.replicate 50 0))
        = Except.error MetaplexError.NumericalOverflowError :=
  ⟨by decide, by decide,
    (ensure_update [] 3 99 (List.replicate 107 0) (by decide)).1 (by decide),
    by decide,
    (ensure_update [] 3 99
        (List.replicate 49 0 ++ List.replicate 8 255 ++ List.replicate 50 0)
        (by decide)).2 (by decide)⟩

/-- C7 counterexample: take a metadata account whose key is the all-1 32-byte
string while its data carries the all-7 mint at bytes 33..65 (source line
128). The freshly created record's 32-byte field after the tag equals the
metadata account key, not the resource mint identifier, so the claim that it
holds the mint is false. -/
theorem ticket_field_not_mint_counterexample :
    metadataMintOf (List.replicate 33 0 ++ List.replicate 32 7)
      = List.replicate 32 7
    ∧ sliceBytes (createTicketData (List.replicate 32 1) 5 3) 1 32
      = List.replicate 32 1
    ∧ sliceBytes (createTicketData (List.replicate 32 1) 5 3) 1 32
      ≠ metadataMintOf (List.replicate 33 0 ++ List.replicate 32 7) := by
  refine ⟨by decide, by decide, by decide⟩

/-- C7 amended: in a newly created record, the 32-byte field following the
tag byte holds the metadata account's key (source line 165) — the address of
the item's metadata record — not the item's mint. -/
theorem ticket_metadata_field_is_account_key (mk : List Nat) (s e : Nat)
    (hmk : mk.length = 32) :
    sliceBytes (createTicketData mk s e) 1 32 = mk :=
  createTicketData_slice_metadata mk s e hmk

/-- C7 amended witness: a concrete 32-byte account key is stored verbatim. -/
theorem ticket_metadata_field_is_account_key_witness :
    (List.replicate 32 4 : List Nat).length = 32
    ∧ sliceBytes (createTicketData (List.replicate 32 4) 9 2) 1 32
        = List.replicate 32 4 :=
  ⟨by decide, ticket_metadata_field_is_account_key (List.replicate 32 4) 9 2
    (by decide)⟩

/-- C9: whenever the update path of `create_or_update_prize_tracking`
succeeds, the new record bytes differ from the old only in the redemptions
region `[49, 57)`: the tag byte, the 32-byte identifier, the supply baseline,
the expected redemptions, and the 50 reserved bytes are byte-for-byte
unchanged, and the record length is preserved. -/
theorem update_frame (mk : List Nat) (ms er : Nat) (data newData : List Nat)
    (bl q : Nat)
    (hlen : data.length = MAX_PRIZE_TRACKING_TICKET_SIZE)
    (h : create_or_update_prize_tracking mk ms er (some data)
        = Except.ok (newData, bl, q)) :
    newData.length = data.length
    ∧ sliceBytes newData 0 1 = sliceBytes data 0 1
    ∧ sliceBytes newData 1 32 = sliceBytes data 1 32
    ∧ sliceBytes newData 33 8 = sliceBytes data 33 8
    ∧ sliceBytes newData 41 8 = sliceBytes data 41 8
    ∧ sliceBytes newData 57 50 = sliceBytes data 57 50 := by
  have hnew : ∃ v, newData = updatedTicketData data v := by
    simp only [create_or_update_prize_tracking] at h
    cases hadd : checkedAdd64 (fromLeBytes (sliceBytes data 49 8)) 1 with
    | none =>
      rw [hadd] at h
      simp at h
    | some v =>
      rw [hadd] at h
      simp only [Except.ok.injEq, Prod.mk.injEq] at h
      exact ⟨v, h.1.symm⟩
  obtain ⟨v, rfl⟩ := hnew
  exact ⟨updatedTicketData_length data v hlen,
    updatedTicketData_slice_low data v 0 1 hlen (by omega),
    updatedTicketData_slice_low data v 1 32 hlen (by omega),
    updatedTicketData_slice_low data v 33 8 hlen (by omega),
    updatedTicketData_slice_low data v 41 8 hlen (by omega),
    updatedTicketData_slice_padding data v hlen⟩

/-- C9 witness: updating an all-zero record changes only the redemptions
bytes. -/
theorem update_frame_witness :
    (List.replicate 107 0 : List Nat).length = MAX_PRIZE_TRACKING_TICKET_SIZE
    ∧ create_or_update_prize_tracking [] 3 99 (some (List.replicate 107 0))
        = Except.ok (updatedTicketData (List.replicate 107 0) 1, 0, 0)
    ∧ ((updatedTicketData (List.replicate 107 0) 1).length
        = (List.replicate 107 0 : List Nat).length
      ∧ sliceBytes (updatedTicketData (List.replicate 107 0) 1) 0 1
          = sliceBytes (List.replicate 107 0) 0 1
      ∧ sliceBytes (updatedTicketData (List.replicate 107 0) 1) 1 32
          = sliceBytes (List.replicate 107 0) 1 32
      ∧ sliceBytes (updatedTicketData (List.replicate 107 0) 1) 33 8
          = sliceBytes (List.replicate 107 0) 33 8
      ∧ sliceBytes (updatedTicketData (List.replicate 107 0) 1) 41 8
          = sliceBytes (List.replicate 107 0) 41 8
      ∧ sliceBytes (updatedTicketData (List.replicate 107 0) 1) 57 50
          = sliceBytes (List.replicate 107 0) 57 50) :=
  ⟨by decide, by rfl,
    update_frame [] 3 99 (List.replicate 107 0)
      (updatedTicketData (List.replicate 107 0) 1) 0 0 (by decide)
      (by rfl)⟩

/-! ### Final edition number (C6) -/

theorem checkedAdd64_some_eq (a b v : Nat) (h : checkedAdd64 a b = some v) :
    v = a + b ∧ a + b < U64MOD := by
  unfold checkedAdd64 at h
  by_cases hc : a + b < U64MOD
  · rw [if_pos hc] at h
    cases h
    exact ⟨rfl, hc⟩
  · rw [if_neg hc] at h
    cases h

theorem checkedAdd64_none_of_le (a b : Nat) (h : U64MOD ≤ a + b) :
    checkedAdd64 a b = none := by
  unfold checkedAdd64
  rw [if_neg (by omega)]

theorem create_or_update_ok_supply (mk : List Nat) (ms er : Nat)
    (ticket : Option (List Nat)) (nt : List Nat) (s q : Nat)
    (h : create_or_update_prize_tracking mk ms er ticket
        = Except.ok (nt, s, q)) :
    s = baselineOf ticket ms := by
  cases ticket with
  | none =>
    simp only [create_or_update_prize_tracking, Except.ok.injEq,
      Prod.mk.injEq] at h
    rw [baselineOf]
    exact h.2.1.symm
  | some data =>
    simp only [create_or_update_prize_tracking] at h
    cases hadd : checkedAdd64 (fromLeBytes (sliceBytes data 49 8)) 1 with
    | none =>
      rw [hadd] at h
      simp at h
    | some v =>
      rw [hadd] at h
      simp only [Except.ok.injEq, Prod.mk.injEq] at h
      rw [baselineOf]
      exact h.2.1.symm

/-- C6: the final edition number is `edition_offset + baseline`, where the baseline
is the ledger's supply baseline, computed with checked u64 addition: every
successful allocation (the only path that produces a mint request) carries
exactly that sum and the sum fits in 64 bits, and when the sum would exceed
the u64 range the operation aborts with `NumericalOverflowError` before any
mint — it never wraps. -/
theorem finalEdition_checked (item : WinningConfigItem)
    (configs : List WinningConfig) (wi order off : Nat) (mk : List Nat)
    (ms : Nat) (ticket : Option (List Nat))
    (hkind : item.winning_config_type = WinningConfigType.PrintingV2)
    (hov : 1 + totalClaimed configs order < U64MOD)
    (hrange : windowMin configs order wi ≤ off
      ∧ off < windowMax configs order wi) :
    (∀ e t, allocate item configs wi order off mk ms ticket
        = Except.ok (e, t) →
      e = off + baselineOf ticket ms
        ∧ off + baselineOf ticket ms < U64MOD)
    ∧ (U64MOD ≤ off + baselineOf ticket ms →
        allocate item configs wi order off mk ms ticket
          = Except.error MetaplexError.NumericalOverflowError) := by
  rw [allocate_eq item configs wi order off mk ms ticket hkind hov]
  have hneg : ¬ (off < windowMin configs order wi
      ∨ windowMax configs order wi ≤ off) := by omega
  rw [if_neg hneg]
  constructor
  · intro e t h
    rcases hco : create_or_update_prize_tracking mk ms
        (if ticket.isNone then totalClaimed configs order else 0) ticket
      with er | ⟨nt, s, q⟩
    · rw [hco] at h
      simp at h
    · rw [hco] at h
      dsimp only at h
      have hs := create_or_update_ok_supply _ _ _ _ _ _ _ hco
      cases hadd : checkedAdd64 off s with
      | none =>
        rw [hadd] at h
        simp at h
      | some v =>
        rw [hadd] at h
        simp only [Except.ok.injEq, Prod.mk.injEq] at h
        have hv := checkedAdd64_some_eq off s v hadd
        rw [← h.1, hv.1, hs]
        exact ⟨rfl, by rw [← hs]; exact hv.2⟩
  · intro hover
    rcases hco : create_or_update_prize_tracking mk ms
        (if ticket.isNone then totalClaimed configs order else 0) ticket
      with er | ⟨nt, s, q⟩
    · have he := create_or_update_error_eq _ _ _ _ _ hco
      rw [he]
    · have hs := create_or_update_ok_supply _ _ _ _ _ _ _ hco
      dsimp only
      rw [checkedAdd64_none_of_le off s (by rw [hs]; exact hover)]

/-- C6 witness: one placement claiming one edition, empty ledger, master
supply at the u64 maximum; requesting offset 1 is in the window `[1, 2)` but
`1 + baseline` overflows, so allocation fails with `NumericalOverflowError`
(and no mint request is produced). -/
theorem finalEdition_checked_witness :
    (⟨0, 1, WinningConfigType.PrintingV2⟩ :
        WinningConfigItem).winning_config_type = WinningConfigType.PrintingV2
    ∧ 1 + totalClaimed [⟨[⟨0, 1, WinningConfigType.PrintingV2⟩]⟩] 0 < U64MOD
    ∧ (windowMin [⟨[⟨0, 1, WinningConfigType.PrintingV2⟩]⟩] 0 0 ≤ 1
      ∧ 1 < windowMax [⟨[⟨0, 1, WinningConfigType.PrintingV2⟩]⟩] 0 0)
    ∧ U64MOD ≤ 1 + baselineOf none (U64MOD - 1)
    ∧ allocate ⟨0, 1, WinningConfigType.PrintingV2⟩
        [⟨[⟨0, 1, WinningConfigType.PrintingV2⟩]⟩] 0 0 1 [] (U64MOD - 1) none
        = Except.error MetaplexError.NumericalOverflowError :=
  ⟨rfl, by decide, ⟨by decide, by decide⟩, by decide,
    (finalEdition_checked ⟨0, 1, WinningConfigType.PrintingV2⟩
      [⟨[⟨0, 1, WinningConfigType.PrintingV2⟩]⟩] 0 0 1 [] (U64MOD - 1) none
      rfl (by decide) ⟨by decide, by decide⟩).2 (by decide)⟩

/-! ### Prize kind is ignored by the quantity matching (C10) -/

/-- Reassign an arbitrary prize kind to an item, leaving its
safety-deposit-box index and amount untouched. -/
def setKind (k : WinningConfigItem → WinningConfigType)
    (i : WinningConfigItem) : WinningConfigItem :=
  { i with winning_config_type := k i }

/-- Reassign arbitrary prize kinds across every item of every placement. -/
def mapKinds (k : WinningConfigItem → WinningConfigType)
    (configs : List WinningConfig) : List WinningConfig :=
  configs.map (fun c => ⟨c.items.map (setKind k)⟩)

theorem count_mapKinds (items : List WinningConfigItem)
    (k : WinningConfigItem → WinningConfigType) (idx : Nat) :
    count_item_amount_by_safety_deposit_order (items.map (setKind k)) idx
      = count_item_amount_by_safety_deposit_order items idx := by
  unfold count_item_amount_by_safety_deposit_order
  rw [List.find?_map]
  have hc : ((fun i : WinningConfigItem =>
      i.safety_deposit_box_index == idx) ∘ setKind k)
      = fun i : WinningConfigItem => i.safety_deposit_box_index == idx := rfl
  rw [hc]
  cases items.find?
      (fun i : WinningConfigItem => i.safety_deposit_box_index == idx) with
  | none => rfl
  | some a => rfl

theorem counts_mapKinds (configs : List WinningConfig)
    (k : WinningConfigItem → WinningConfigType) (order : Nat) :
    counts (mapKinds k configs) order = counts configs order := by
  unfold counts mapKinds
  rw [List.map_map]
  apply List.map_congr_left
  intro c _
  exact count_mapKinds c.items k order

theorem redeemLoopGo_mapKinds (order wiV : Nat) (te : Bool)
    (k : WinningConfigItem → WinningConfigType) :
    ∀ (rest : List WinningConfig) (n mn ex : Nat),
      redeemLoopGo order wiV te
          (rest.map (fun c => ⟨c.items.map (setKind k)⟩)) n mn ex
        = redeemLoopGo order wiV te rest n mn ex := by
  intro rest
  induction rest with
  | nil => intro n mn ex; rfl
  | cons cfg rest ih =>
    intro n mn ex
    simp only [List.map_cons, redeemLoopGo, count_mapKinds, ih]

theorem getD_mapKinds_count (configs : List WinningConfig)
    (k : WinningConfigItem → WinningConfigType) (order wi : Nat) :
    count_item_amount_by_safety_deposit_order
        ((mapKinds k configs).getD wi ⟨[]⟩).items order
      = count_item_amount_by_safety_deposit_order
          (configs.getD wi ⟨[]⟩).items order := by
  rw [← quantityAt_eq_getD, ← quantityAt_eq_getD]
  unfold quantityAt
  rw [counts_mapKinds]

/-- C10: quantity matching considers only the safety-deposit (resource)
index, never the prize kind. A claim of any kind against the matching index
contributes its amount; reassigning arbitrary kinds to all items changes
neither the claimed total, the window bounds, nor the allocation outcome;
the prize-kind test applies only to the separately supplied target winning
item, whose wrong kind yields `WrongBidEndpointForPrize`. -/
theorem kind_ignored_in_counts (k : WinningConfigItem → WinningConfigType)
    (item : WinningConfigItem) (configs : List WinningConfig)
    (wi order off t : Nat) (mk : List Nat) (ms : Nat)
    (ticket : Option (List Nat)) :
    (∀ i : WinningConfigItem, i.safety_deposit_box_index = order →
      count_item_amount_by_safety_deposit_order [i] order = i.amount)
    ∧ totalClaimed (mapKinds k configs) order = totalClaimed configs order
    ∧ windowMin (mapKinds k configs) order t = windowMin configs order t
    ∧ windowMax (mapKinds k configs) order t = windowMax configs order t
    ∧ allocate item (mapKinds k configs) wi order off mk ms ticket
        = allocate item configs wi order off mk ms ticket
    ∧ (item.winning_config_type ≠ WinningConfigType.PrintingV2 →
        allocate item configs wi order off mk ms ticket
          = Except.error MetaplexError.WrongBidEndpointForPrize) := by
  refine ⟨?_, ?_, ?_, ?_, ?_, ?_⟩
  · intro i hi
    unfold count_item_amount_by_safety_deposit_order
    rw [List.find?_cons_of_pos _ (by simpa using hi)]
  · unfold totalClaimed
    rw [counts_mapKinds]
  · unfold windowMin
    rw [counts_mapKinds]
  · unfold windowMax windowMin quantityAt
    rw [counts_mapKinds]
  · have hloop : redeemWindowLoop (mapKinds k configs) order wi ticket.isNone
        = redeemWindowLoop configs order wi ticket.isNone := by
      unfold redeemWindowLoop mapKinds
      exact redeemLoopGo_mapKinds order wi ticket.isNone k configs 0 1 0
    have hcnt : count_item_amount_by_safety_deposit_order
        ((mapKinds k configs).getD wi ⟨[]⟩).items order
      = count_item_amount_by_safety_deposit_order
          (configs.getD wi ⟨[]⟩).items order :=
      getD_mapKinds_count configs k order wi
    unfold allocate
    rw [hloop, hcnt]
  · intro hkind
    unfold allocate
    rw [if_pos (by simpa using hkind)]

/-- C10 witness: a `TokenOnlyTransfer` claim on index 0 contributes its
amount 9; a target item of kind `Participation` is rejected with
`WrongBidEndpointForPrize`. -/
theorem kind_ignored_in_counts_witness :
    count_item_amount_by_safety_deposit_order
      [⟨0, 9, WinningConfigType.TokenOnlyTransfer⟩] 0 = 9
    ∧ totalClaimed
        (mapKinds (fun _ => WinningConfigType.TokenOnlyTransfer)
          [⟨[⟨0, 9, WinningConfigType.PrintingV2⟩]⟩]) 0
      = totalClaimed [⟨[⟨0, 9, WinningConfigType.PrintingV2⟩]⟩] 0
    ∧ allocate ⟨0, 9, WinningConfigType.Participation⟩
        [⟨[⟨0, 9, WinningConfigType.PrintingV2⟩]⟩] 0 0 1 [] 0 none
        = Except.error MetaplexError.WrongBidEndpointForPrize := by
  have h := kind_ignored_in_counts
    (fun _ => WinningConfigType.TokenOnlyTransfer)
    ⟨0, 9, WinningConfigType.Participation⟩
    [⟨[⟨0, 9, WinningConfigType.PrintingV2⟩]⟩] 0 0 1 0 [] 0 none
  exact ⟨h.1 ⟨0, 9, WinningConfigType.TokenOnlyTransfer⟩ rfl,
    h.2.1, h.2.2.2.2.2 (by decide)⟩
